import Mathlib

/-!
Verification of the sockpp consolidated socket translation unit
(`socket.cpp`, embedded in `src/include/sockpp/tcp.h`): the handle
lifecycle (`socket::close`, `socket::reset`, `socket::bind`), the stream
I/O loops (`stream_socket::read_n`, `stream_socket::write_n`) and the
timeout-bounded connect state machine (`connector::connect`).

OS calls are modelled by explicit oracles (functions giving the outcome
of each platform call), and each operation returns, besides its result,
the trace of platform operations it performed, so that ordering and
resource claims (close-before-return, set-option-before-bind, restore
of the blocking mode) can be stated.
-/

namespace Sockpp

/-- Error conditions of the `errc` enumeration used by the translation
unit, plus `raw n` for a platform error number surfaced verbatim
(e.g. a pending `SO_ERROR` value). -/
inductive Errc where
  | interrupted
  | timedOut
  | invalidArgument
  | operationInProgress
  | operationWouldBlock
  | connectionRefused
  | functionNotSupported
  | raw (n : Nat)
deriving DecidableEq, Repr

/-- Modelled from the spec: `result<T>` from the missing `result.h`
header (only its callers are in `src/`).  A sum of a success value and
an error descriptor; the C++ object carries both fields, the value
being default-initialized (zero) in the error state, which the
`read_n`/`write_n` loops rely on.  `err = none` is the "no error"
sentinel; the result is truthy iff `err = none`. -/
structure Result (α : Type) where
  val : α
  err : Option Errc
deriving DecidableEq, Repr

/-- A success result. -/
def Result.ok {α : Type} (v : α) : Result α := ⟨v, none⟩

/-- Modelled from the spec: a result in the error state; the success
value field holds the default value of the type. -/
def Result.fromErrc {α : Type} [Inhabited α] (e : Errc) : Result α := ⟨default, some e⟩

/-- Modelled from the spec: `result<T>::from_error(int)` for a raw
platform error number; zero is the "no error" sentinel, so
`from_error(0)` is a success. -/
def Result.fromRawError {α : Type} [Inhabited α] (n : Nat) : Result α :=
  if n = 0 then ⟨default, none⟩ else ⟨default, some (Errc.raw n)⟩

/-- Truthiness of a result (`operator bool`): true iff no error. -/
def Result.isOk {α : Type} (r : Result α) : Bool := r.err.isNone

/-- The accessor `result::value()`: unconditional accessor of the success-value
field, as the C++ accessor is (no discriminant check). -/
def Result.value {α : Type} (r : Result α) : α := r.val

/-- The invalid-handle sentinel `INVALID_SOCKET`. -/
def INVALID_SOCKET : Int := -1

/-!
## Stream I/O: the `read_n` / `write_n` loop

`stream_socket::read_n` and `stream_socket::write_n` are textually the
same loop over the single-call primitive:

    size_t nx = 0;
    while (nx < n) {
        auto res = read(b + nx, n - nx);
        if (!res && res != errc::interrupted)
            return res.error();
        nx += size_t(res.value());
    }
    return nx;

The single OS call is modelled by an oracle `σ i req`: the outcome of
the i-th underlying call when `req` bytes are requested.  The loop is
given fuel (`none` = the fuel ran out with the loop still running, a
witness of non-termination when it holds for every fuel).  The Bool
component instruments the `res.value()` read: it is set whenever the
success-value field is read while the result is in the error state.
-/

/-- Outcome of one underlying `read`/`write` call. -/
inductive RWOutcome where
  | ok (k : Nat)
  | err (e : Errc)
deriving DecidableEq, Repr

/-- The `result<size_t>` produced by one underlying call: an error
outcome carries the default (zero) success value. -/
def RWOutcome.toResult : RWOutcome → Result Nat
  | .ok k => Result.ok k
  | .err e => ⟨0, some e⟩

/-- The shared `read_n`/`write_n` loop body, with fuel.  Arguments
after the target `n`: remaining fuel, index of the next underlying
call, bytes transferred so far (`nx`), and the instrumentation flag
recording whether `value()` was read on an error-state result. -/
def rwLoop (σ : Nat → Nat → RWOutcome) (n : Nat) :
    Nat → Nat → Nat → Bool → Option (Result Nat × Bool)
  | 0, _, _, _ => none
  | fuel + 1, i, nx, insp =>
    if nx < n then
      let res := (σ i (n - nx)).toResult
      if res.err ≠ none ∧ res.err ≠ some Errc.interrupted then
        some (⟨0, res.err⟩, insp)
      else
        rwLoop σ n fuel (i + 1) (nx + res.value) (insp || res.err.isSome)
    else
      some (Result.ok nx, insp)

/-- The loop `stream_socket::read_n(buf, n)` over the outcome oracle, with fuel. -/
def read_n (σ : Nat → Nat → RWOutcome) (n fuel : Nat) : Option (Result Nat × Bool) :=
  rwLoop σ n fuel 0 0 false

/-- The loop `stream_socket::write_n(buf, n)` over the outcome oracle, with
fuel; the source loop is textually identical to the `read_n` one. -/
def write_n (σ : Nat → Nat → RWOutcome) (n fuel : Nat) : Option (Result Nat × Bool) :=
  rwLoop σ n fuel 0 0 false

/-- The oracle whose every call is a zero-length success (a peer that
has closed the stream: `recv` returns 0 forever). -/
def zeroStream : Nat → Nat → RWOutcome := fun _ _ => RWOutcome.ok 0

/-!
## Handle lifecycle: `socket::reset`, `socket::close`

A socket owns one platform handle; `INVALID_SOCKET` marks the
unowned state.  The OS release call is modelled by an oracle
`os : Int → Option Errc` giving the outcome of releasing each handle
(`none` = released cleanly).  `close` additionally returns the list of
handles it asked the OS to release.
-/

/-- The socket base object: the one owned platform handle. -/
structure Socket where
  handle : Int
deriving DecidableEq, Repr

/-- The method `socket::reset(h)`: if `h` is already the owned handle, nothing
happens; otherwise the socket takes ownership of `h` and the
previously owned handle, when valid, is closed.  Returns the new
state and the handles handed to `close`. -/
def Socket.reset (s : Socket) (h : Int) : Socket × List Int :=
  if h = s.handle then (s, [])
  else (⟨h⟩, if s.handle ≠ INVALID_SOCKET then [s.handle] else [])

/-- Modelled from the spec: `socket::release()` from the missing
`socket.h` header — hands the owned handle to the caller and leaves
the owner holding the invalid sentinel. -/
def Socket.release (s : Socket) : Int × Socket := (s.handle, ⟨INVALID_SOCKET⟩)

/-- The static `socket::close(socket_t h)`: ask the OS to release `h`
and surface the outcome (`check_res_none`). -/
def closeHandleCall (os : Int → Option Errc) (h : Int) : Result Unit := ⟨(), os h⟩

/-- The method `socket::close()`: when a valid handle is owned, release it and
hand it to the OS, surfacing the OS outcome; when the handle is the
invalid sentinel, succeed without any OS call.  Returns the new state,
the result, and the handles handed to the OS. -/
def Socket.close (os : Int → Option Errc) (s : Socket) : Socket × Result Unit × List Int :=
  if s.handle ≠ INVALID_SOCKET then
    ((s.release).2, closeHandleCall os (s.release).1, [(s.release).1])
  else (s, Result.ok (), [])

/-!
## `socket::bind(addr, reuse)`

The reuse option is validated against the platform-supported variants
before anything is done: on Windows only `SO_REUSEADDR`, on POSIX
`SO_REUSEADDR` or `SO_REUSEPORT`.  A supported non-zero option is set
(via `set_option`) before the OS bind is attempted.  The OS outcomes
are an oracle; the returned trace records the platform calls in
order.
-/

/-- The compilation platform (the `_WIN32` preprocessor switch). -/
inductive Platform where
  | windows
  | posix
deriving DecidableEq, Repr

/-- The `SO_REUSEADDR` option constant (symbolic value). -/
def SO_REUSEADDR : Nat := 2

/-- The `SO_REUSEPORT` option constant (symbolic value). -/
def SO_REUSEPORT : Nat := 15

/-- OS outcomes for one `bind` call: the `setsockopt` outcome and the
`bind` outcome. -/
structure BindOracle where
  setOptRes : Option Errc
  bindRes : Option Errc
deriving DecidableEq, Repr

/-- Platform calls made by `socket::bind`. -/
inductive BindOp where
  | setOpt (opt : Nat)
  | osBind
deriving DecidableEq, Repr

/-- Whether the reuse option is a platform-supported variant. -/
def reuseSupported (p : Platform) (reuse : Nat) : Bool :=
  match p with
  | .windows => reuse = SO_REUSEADDR
  | .posix => reuse = SO_REUSEADDR || reuse = SO_REUSEPORT

/-- The method `socket::bind(addr, reuse)`: validate a non-zero reuse option
against the platform, set it, then bind. -/
def Socket.bind (p : Platform) (oc : BindOracle) (reuse : Nat) : Result Unit × List BindOp :=
  if reuse ≠ 0 then
    if ¬reuseSupported p reuse then
      (Result.fromErrc Errc.invalidArgument, [])
    else
      match oc.setOptRes with
      | some e => (⟨(), some e⟩, [.setOpt reuse])
      | none => (⟨(), oc.bindRes⟩, [.setOpt reuse, .osBind])
  else (⟨(), oc.bindRes⟩, [.osBind])

/-!
## `connector::connect` — the timeout-bounded state machine

`connect(addr, timeout)` with `timeout ≤ 0` degrades to the plain
`connect(addr)`.  Otherwise: recreate the handle, switch to
non-blocking when the (fresh) socket is blocking, issue the OS
connect; on in-progress/would-block wait for readiness (poll/select)
bounded by the timeout; on readiness retrieve `SO_ERROR`; a wait that
elapses yields `errc::timed_out`; any error result then closes the
handle before returning; a success return restores the blocking mode
when it had been switched.

The OS outcomes are an oracle; the connector state carries the owned
handle and the non-blocking flag of its descriptor; the trace records
the platform calls in order.
-/

/-- OS outcomes for one `connect` call. -/
structure ConnOracle where
  /-- Outcome of `create_handle` (`none` = a handle was created). -/
  createRes : Option Errc
  /-- The handle value created by a successful `create_handle`. -/
  freshHandle : Int
  /-- Non-blocking flag of the fresh descriptor, as `is_non_blocking()`
  reports it (a fresh socket is blocking, so `false` in reality). -/
  freshNonBlocking : Bool
  /-- Outcome of the OS `::connect` call (`none` = immediate success). -/
  connectRes : Option Errc
  /-- Result of `check_res` applied to the readiness wait (`poll`/`select`): the count of
  ready descriptors on success, or the error of the wait itself. -/
  pollRes : Result Nat
  /-- Outcome of `get_option(SOL_SOCKET, SO_ERROR, ...)` itself. -/
  getOptRes : Option Errc
  /-- The pending error value written by a successful `SO_ERROR`
  retrieval (0 = the connect completed cleanly). -/
  soError : Nat
deriving DecidableEq, Repr

/-- Connector state: the owned handle and the non-blocking flag of its
descriptor (meaningful while the handle is valid). -/
structure ConnState where
  handle : Int
  nonBlocking : Bool
deriving DecidableEq, Repr

/-- Platform calls made by `connector::connect`. -/
inductive ConnOp where
  | createHandle
  | closeHandle (h : Int)
  | setNonBlocking (b : Bool)
  | connectCall
  | waitCall
  | getSoError
deriving DecidableEq, Repr

/-- The call `socket::close()` as used inside the connector: release the valid
handle to the OS (discarding the OS outcome, as the source does) and
keep the sentinel. -/
def ConnState.doClose (s : ConnState) : ConnState × List ConnOp :=
  if s.handle ≠ INVALID_SOCKET then
    ({ s with handle := INVALID_SOCKET }, [.closeHandle s.handle])
  else (s, [])

/-- The method `connector::recreate(addr)`: create a fresh handle and `reset` to
it (closing the previously owned one when valid). -/
def connRecreate (oc : ConnOracle) (s : ConnState) : ConnState × List ConnOp :=
  if oc.freshHandle = s.handle then (s, [])
  else
    (⟨oc.freshHandle, oc.freshNonBlocking⟩,
      if s.handle ≠ INVALID_SOCKET then [.closeHandle s.handle] else [])

/-- The plain `connector::connect(addr)`: recreate, then one blocking
OS connect; the error, when any, is returned verbatim and the handle
is left as it is. -/
def connectPlain (oc : ConnOracle) (s : ConnState) : ConnState × Result Unit × List ConnOp :=
  match oc.createRes with
  | some e => (s, ⟨(), some e⟩, [.createHandle])
  | none =>
    let (s1, trR) := connRecreate oc s
    (s1, ⟨(), oc.connectRes⟩, [ConnOp.createHandle] ++ trR ++ [ConnOp.connectCall])

/-- The success return of the timed connect: restore the blocking mode
when it had been switched (`nb = false` means the switch happened),
then return success. -/
def connOk (nb : Bool) (st : ConnState) (tr : List ConnOp) :
    ConnState × Result Unit × List ConnOp :=
  if ¬nb then
    ({ st with nonBlocking := false }, Result.ok (), tr ++ [ConnOp.setNonBlocking false])
  else (st, Result.ok (), tr)

/-- The failure return of the timed connect: `close(); return
res.error();` — close the handle, then surface the error. -/
def connFail (st : ConnState) (tr : List ConnOp) (e : Errc) :
    ConnState × Result Unit × List ConnOp :=
  ((st.doClose).1, ⟨(), some e⟩, tr ++ (st.doClose).2)

/-- The `non_blocking` flag captured at step 2 of the state machine:
hard-coded `false` on Windows (no `is_non_blocking` query there), the
`is_non_blocking()` query on the freshly recreated socket on POSIX. -/
def connNb (p : Platform) (oc : ConnOracle) (s : ConnState) : Bool :=
  match p with
  | .windows => false
  | .posix => ((connRecreate oc s).1).nonBlocking

/-- The connector state after the scoped switch to non-blocking mode
(performed exactly when the captured flag says the socket was
blocking). -/
def connS2 (p : Platform) (oc : ConnOracle) (s : ConnState) : ConnState :=
  if ¬connNb p oc s then { (connRecreate oc s).1 with nonBlocking := true }
  else (connRecreate oc s).1

/-- The platform-call trace accumulated up to and including the OS
`::connect` call. -/
def connBase (p : Platform) (oc : ConnOracle) (s : ConnState) : List ConnOp :=
  [ConnOp.createHandle] ++ (connRecreate oc s).2 ++
    (if ¬connNb p oc s then [ConnOp.setNonBlocking true] else []) ++ [ConnOp.connectCall]

/-- Steps 4–5 of the state machine, after the OS connect reported
in-progress/would-block and the readiness wait was issued: a wait
error closes and propagates; a wait that elapses (ready count 0)
closes and yields `errc::timed_out`; readiness retrieves `SO_ERROR`
and surfaces a non-zero pending error (zero, or a failed retrieval,
falls through to the success return). -/
def connAfterWait (nb : Bool) (s2 : ConnState) (base2 : List ConnOp) (pollRes : Result Nat)
    (getOptRes : Option Errc) (soError : Nat) : ConnState × Result Unit × List ConnOp :=
  match pollRes.err with
  | some we => connFail s2 base2 we
  | none =>
    if pollRes.val > 0 then
      match getOptRes with
      | some _ => connOk nb s2 (base2 ++ [ConnOp.getSoError])
      | none =>
        if soError = 0 then connOk nb s2 (base2 ++ [ConnOp.getSoError])
        else connFail s2 (base2 ++ [ConnOp.getSoError]) (Errc.raw soError)
    else connFail s2 base2 Errc.timedOut

/-- Step 3 of the state machine: dispatch on the outcome of the OS
`::connect` call issued in non-blocking mode. -/
def connDispatch (nb : Bool) (s2 : ConnState) (base : List ConnOp)
    (connectRes : Option Errc) (pollRes : Result Nat) (getOptRes : Option Errc)
    (soError : Nat) : ConnState × Result Unit × List ConnOp :=
  match connectRes with
  | none => connOk nb s2 base
  | some e =>
    if e = Errc.operationInProgress ∨ e = Errc.operationWouldBlock then
      connAfterWait nb s2 (base ++ [ConnOp.waitCall]) pollRes getOptRes soError
    else connFail s2 base e

/-- The method `connector::connect(addr, timeout)`: the timeout-bounded
non-blocking connect state machine (see the section comment). -/
def connectTimed (p : Platform) (oc : ConnOracle) (s : ConnState) (timeout : Int) :
    ConnState × Result Unit × List ConnOp :=
  if timeout ≤ 0 then connectPlain oc s
  else
    match oc.createRes with
    | some e => (s, ⟨(), some e⟩, [.createHandle])
    | none =>
      connDispatch (connNb p oc s) (connS2 p oc s) (connBase p oc s) oc.connectRes
        oc.pollRes oc.getOptRes oc.soError

/-!
## Concrete oracles used in witnesses and counterexamples
-/

/-- An underlying stream whose first call is interrupted and whose
later calls each transfer one byte. -/
def sigmaIntrOk : Nat → Nat → RWOutcome :=
  fun i _ => if i = 0 then RWOutcome.err Errc.interrupted else RWOutcome.ok 1

/-- A first call interrupted, every later call refused. -/
def sigmaIntrRefused : Nat → Nat → RWOutcome :=
  fun i _ => if i = 0 then RWOutcome.err Errc.interrupted
             else RWOutcome.err Errc.connectionRefused

/-- Every call refused. -/
def sigmaRefused : Nat → Nat → RWOutcome := fun _ _ => RWOutcome.err Errc.connectionRefused

/-- Every call transfers exactly one byte. -/
def sigmaOne : Nat → Nat → RWOutcome := fun _ _ => RWOutcome.ok 1

/-- An OS on which every release call reports an error. -/
def osErr : Int → Option Errc := fun _ => some Errc.invalidArgument

/-- A connector that starts unconnected and blocking. -/
def sInit : ConnState := ⟨INVALID_SOCKET, false⟩

/-- Connect oracle: handle 7 created, OS connect refused immediately. -/
def ocRefused : ConnOracle :=
  ⟨none, 7, false, some Errc.connectionRefused, Result.ok 0, none, 0⟩

/-- Connect oracle: in-progress, then a readiness wait that elapses
(ready count 0). -/
def ocTimeout : ConnOracle :=
  ⟨none, 7, false, some Errc.operationInProgress, Result.ok 0, none, 0⟩

/-- Connect oracle: in-progress, descriptor ready, pending error 111. -/
def ocSoErr : ConnOracle :=
  ⟨none, 7, false, some Errc.operationInProgress, Result.ok 1, none, 111⟩

/-- Connect oracle: in-progress, descriptor ready, no pending error. -/
def ocSoZero : ConnOracle :=
  ⟨none, 7, false, some Errc.operationInProgress, Result.ok 1, none, 0⟩

/-!
## Lemmas on the `read_n`/`write_n` loop
-/

lemma rwLoop_exit (σ : Nat → Nat → RWOutcome) (n fuel i nx : Nat) (insp : Bool)
    (h : ¬nx < n) : rwLoop σ n (fuel + 1) i nx insp = some (Result.ok nx, insp) := by
  simp [rwLoop, h]

lemma rwLoop_ok_step (σ : Nat → Nat → RWOutcome) (n fuel i nx : Nat) (insp : Bool) (k : Nat)
    (h : nx < n) (hσ : σ i (n - nx) = RWOutcome.ok k) :
    rwLoop σ n (fuel + 1) i nx insp = rwLoop σ n fuel (i + 1) (nx + k) insp := by
  simp [rwLoop, h, hσ, RWOutcome.toResult, Result.value, Result.ok]

lemma rwLoop_interrupted_step (σ : Nat → Nat → RWOutcome) (n fuel i nx : Nat) (insp : Bool)
    (h : nx < n) (hσ : σ i (n - nx) = RWOutcome.err Errc.interrupted) :
    rwLoop σ n (fuel + 1) i nx insp = rwLoop σ n fuel (i + 1) nx true := by
  simp [rwLoop, h, hσ, RWOutcome.toResult, Result.value]

lemma rwLoop_abort_step (σ : Nat → Nat → RWOutcome) (n fuel i nx : Nat) (insp : Bool)
    (e : Errc) (h : nx < n) (he : e ≠ Errc.interrupted)
    (hσ : σ i (n - nx) = RWOutcome.err e) :
    rwLoop σ n (fuel + 1) i nx insp = some (⟨0, some e⟩, insp) := by
  simp [rwLoop, h, hσ, RWOutcome.toResult, he]

lemma zeroStream_spin (fuel : Nat) :
    ∀ i : Nat, ∀ insp : Bool, rwLoop zeroStream 1 fuel i 0 insp = none := by
  induction fuel with
  | zero => intro i insp; rfl
  | succ fuel ih =>
    intro i insp
    rw [rwLoop_ok_step zeroStream 1 fuel i 0 insp 0 (by omega) rfl]
    exact ih (i + 1) insp

/-- The loop completes within `n + 1` calls and returns exactly `n` or
a non-interrupted error, provided every call either errors
(non-interrupted) or transfers between 1 and the requested count. -/
lemma rwLoop_completes (σ : Nat → Nat → RWOutcome)
    (Hok : ∀ i req k, 0 < req → σ i req = RWOutcome.ok k → 1 ≤ k ∧ k ≤ req)
    (Herr : ∀ i req, σ i req ≠ RWOutcome.err Errc.interrupted) (n : Nat) :
    ∀ fuel i nx insp, nx ≤ n → n - nx < fuel →
      ∃ r insp2, rwLoop σ n fuel i nx insp = some (r, insp2) ∧
        (r = Result.ok n ∨ ∃ e, e ≠ Errc.interrupted ∧ r = ⟨0, some e⟩) := by
  intro fuel
  induction fuel with
  | zero => intro i nx insp h1 h2; omega
  | succ fuel ih =>
    intro i nx insp h1 h2
    by_cases hlt : nx < n
    · cases hcase : σ i (n - nx) with
      | ok k =>
        obtain ⟨hk1, hk2⟩ := Hok i (n - nx) k (by omega) hcase
        rw [rwLoop_ok_step σ n fuel i nx insp k hlt hcase]
        exact ih (i + 1) (nx + k) insp (by omega) (by omega)
      | err e =>
        have he : e ≠ Errc.interrupted := fun hh => Herr i (n - nx) (hh ▸ hcase)
        rw [rwLoop_abort_step σ n fuel i nx insp e hlt he hcase]
        exact ⟨⟨0, some e⟩, insp, rfl, Or.inr ⟨e, he, rfl⟩⟩
    · have hnx : nx = n := by omega
      rw [rwLoop_exit σ n fuel i nx insp hlt]
      exact ⟨Result.ok nx, insp, rfl, Or.inl (by rw [hnx])⟩

/-- With no interrupted outcome in the stream, the loop never reads
the success value of an error-state result: the instrumentation flag
comes back `false`. -/
lemma rwLoop_no_error_inspection (σ : Nat → Nat → RWOutcome)
    (hσ : ∀ i req, σ i req ≠ RWOutcome.err Errc.interrupted) (n : Nat) :
    ∀ fuel i nx r insp2, rwLoop σ n fuel i nx false = some (r, insp2) → insp2 = false := by
  intro fuel
  induction fuel with
  | zero => intro i nx r insp2 h; exact Option.noConfusion h
  | succ fuel ih =>
    intro i nx r insp2 h
    by_cases hlt : nx < n
    · cases hcase : σ i (n - nx) with
      | ok k =>
        rw [rwLoop_ok_step σ n fuel i nx false k hlt hcase] at h
        exact ih (i + 1) (nx + k) r insp2 h
      | err e =>
        have he : e ≠ Errc.interrupted := fun hh => hσ i (n - nx) (hh ▸ hcase)
        rw [rwLoop_abort_step σ n fuel i nx false e hlt he hcase] at h
        cases h
        rfl
    · rw [rwLoop_exit σ n fuel i nx false hlt] at h
      cases h
      rfl

/-!
## Claims C5, C6, C7: the stream I/O loops
-/

/-- Claim C5, counterexample: against a peer that has closed the
stream (every underlying `read` a zero-length success — not an
error), `read_n(buf, 1)` never terminates: the loop is still running
whatever fuel it is given, so there is no outcome at all, rather than
the claimed "exactly n or first non-interrupted error". -/
theorem read_n_eof_divergence : ¬∃ fuel r, read_n zeroStream 1 fuel = some r := by
  rintro ⟨fuel, r, h⟩
  rw [read_n, zeroStream_spin fuel 0 false] at h
  exact Option.noConfusion h

/-- Claim C5 (amended): `read_n(buf, n)` terminates — returning
exactly `n` transferred bytes or a non-interrupted error — for every
outcome sequence in which each underlying call either fails with a
non-interrupted error or transfers between one byte and the requested
count.  (Zero-length successful results make the loop spin forever,
see the counterexample; an unbounded run of interrupted errors
likewise never advances it.) -/
theorem read_n_terminates (σ : Nat → Nat → RWOutcome)
    (Hok : ∀ i req k, 0 < req → σ i req = RWOutcome.ok k → 1 ≤ k ∧ k ≤ req)
    (Herr : ∀ i req, σ i req ≠ RWOutcome.err Errc.interrupted) (n fuel : Nat)
    (hf : n < fuel) :
    ∃ r insp, read_n σ n fuel = some (r, insp) ∧
      (r = Result.ok n ∨ ∃ e, e ≠ Errc.interrupted ∧ r = ⟨0, some e⟩) := by
  have h := rwLoop_completes σ Hok Herr n fuel 0 0 false (by omega) (by omega)
  simpa [read_n] using h

/-- Witness for `read_n_terminates` at the one-byte-per-call stream,
`n = 2`, fuel 3. -/
theorem read_n_terminates_witness :
    read_n sigmaOne 2 3 = some (Result.ok 2, false) ∧
    ∃ r insp, read_n sigmaOne 2 3 = some (r, insp) ∧
      (r = Result.ok 2 ∨ ∃ e, e ≠ Errc.interrupted ∧ r = ⟨0, some e⟩) := by
  refine ⟨rfl, read_n_terminates sigmaOne ?_ ?_ 2 3 (by omega)⟩
  · intro i req k hreq heq
    have : k = 1 := by
      simpa [sigmaOne] using heq.symm
    omega
  · intro i req
    simp [sigmaOne]

/-- Claim C6: in `read_n` and `write_n`, an interrupted error from the
underlying single call is absorbed and the transfer retried with the
byte count unchanged, while any other error aborts the loop
immediately and the caller receives that error as an error-state
result — never the count transferred so far (the returned value field
is the error-state default 0). -/
theorem rw_error_policy (σ : Nat → Nat → RWOutcome) (n fuel i nx : Nat) (insp : Bool)
    (e : Errc) :
    (nx < n → σ i (n - nx) = RWOutcome.err Errc.interrupted →
      rwLoop σ n (fuel + 1) i nx insp = rwLoop σ n fuel (i + 1) nx true) ∧
    (nx < n → σ i (n - nx) = RWOutcome.err e → e ≠ Errc.interrupted →
      rwLoop σ n (fuel + 1) i nx insp = some (⟨0, some e⟩, insp)) ∧
    (0 < n → σ 0 n = RWOutcome.err e → e ≠ Errc.interrupted →
      read_n σ n (fuel + 1) = some (⟨0, some e⟩, false) ∧
      write_n σ n (fuel + 1) = some (⟨0, some e⟩, false)) := by
  refine ⟨fun h hσ => rwLoop_interrupted_step σ n fuel i nx insp h hσ,
    fun h hσ he => rwLoop_abort_step σ n fuel i nx insp e h he hσ, ?_⟩
  intro h hσ he
  have hσ0 : σ 0 (n - 0) = RWOutcome.err e := by simpa using hσ
  constructor
  · rw [read_n]; exact rwLoop_abort_step σ n fuel 0 0 false e h he hσ0
  · rw [write_n]; exact rwLoop_abort_step σ n fuel 0 0 false e h he hσ0

/-- Witness for `rw_error_policy`: a first interrupted call is
retried; a refused call aborts `read_n`/`write_n` with the refused
error. -/
theorem rw_error_policy_witness :
    rwLoop sigmaIntrRefused 2 2 0 0 false = rwLoop sigmaIntrRefused 2 1 1 0 true ∧
    read_n sigmaRefused 2 1 = some (⟨0, some Errc.connectionRefused⟩, false) ∧
    write_n sigmaRefused 2 1 = some (⟨0, some Errc.connectionRefused⟩, false) := by
  refine ⟨(rw_error_policy sigmaIntrRefused 2 1 0 0 false Errc.connectionRefused).1
      (by omega) rfl, ?_⟩
  exact (rw_error_policy sigmaRefused 2 0 0 0 false Errc.connectionRefused).2.2
    (by omega) rfl (by decide)

/-- Claim C7, counterexample: after the first underlying `read`
returns an interrupted error-state result, `read_n` silently reads its
success-value field (`nx += res.value()`): the instrumentation flag of
the run comes back `true`, contradicting "its success value is never
silently inspected". -/
theorem read_n_inspects_interrupted_value :
    read_n sigmaIntrOk 1 3 = some (Result.ok 1, true) := rfl

/-- Claim C7 (amended): the loops read the success value of an
error-state result exactly for interrupted results — where the read
silently yields the error-state default 0, leaving the byte count
unchanged — and after a non-interrupted error the success value is
never inspected (the loop returns the error first): with no
interrupted outcome in the stream the instrumentation flag stays
`false` on every completed run. -/
theorem value_inspection_scope (σ : Nat → Nat → RWOutcome)
    (hσ : ∀ i req, σ i req ≠ RWOutcome.err Errc.interrupted) (n : Nat) :
    (∀ fuel i nx r insp2, rwLoop σ n fuel i nx false = some (r, insp2) → insp2 = false) ∧
    (∀ τ fuel i nx insp, nx < n → τ i (n - nx) = RWOutcome.err Errc.interrupted →
      rwLoop τ n (fuel + 1) i nx insp = rwLoop τ n fuel (i + 1) nx true) :=
  ⟨rwLoop_no_error_inspection σ hσ n,
    fun τ fuel i nx insp h hτ => rwLoop_interrupted_step τ n fuel i nx insp h hτ⟩

/-- Witness for `value_inspection_scope` at the always-refused stream. -/
theorem value_inspection_scope_witness :
    rwLoop sigmaRefused 2 1 0 0 false = some (⟨0, some Errc.connectionRefused⟩, false) ∧
    false = false := by
  refine ⟨rfl, ?_⟩
  exact (value_inspection_scope sigmaRefused (fun i req => by simp [sigmaRefused]) 2).1
    1 0 0 ⟨0, some Errc.connectionRefused⟩ false rfl

/-!
## Claims C8, C9, C10: handle lifecycle and bind
-/

/-- Claim C8: `socket::close` is idempotent — on an invalid handle (in
particular after a successful first close) it returns success without
handing anything to the OS — and on a valid handle an OS error on
release is surfaced to the caller, not swallowed. -/
theorem close_idempotent (os : Int → Option Errc) (s : Socket) (e : Errc) :
    (s.handle = INVALID_SOCKET → Socket.close os s = (s, Result.ok (), [])) ∧
    (s.handle ≠ INVALID_SOCKET → os s.handle = some e →
      (Socket.close os s).2.1 = ⟨(), some e⟩ ∧ (Socket.close os s).2.2 = [s.handle]) ∧
    Socket.close os (Socket.close os s).1 = ((Socket.close os s).1, Result.ok (), []) := by
  refine ⟨fun h => by simp [Socket.close, h], fun h he => by
    simp [Socket.close, Socket.release, closeHandleCall, h, he], ?_⟩
  have hinv : ((Socket.close os s).1).handle = INVALID_SOCKET := by
    by_cases h : s.handle = INVALID_SOCKET <;> simp [Socket.close, Socket.release, h]
  generalize hgen : (Socket.close os s).1 = s2 at hinv ⊢
  simp [Socket.close, hinv]

/-- Witness for `close_idempotent`: handle 5, an OS that reports an
error on release; the first close surfaces it, the second close is a
success with no OS call. -/
theorem close_idempotent_witness :
    ((5 : Int) ≠ INVALID_SOCKET ∧ osErr 5 = some Errc.invalidArgument) ∧
    (Socket.close osErr ⟨5⟩).2.1 = ⟨(), some Errc.invalidArgument⟩ ∧
    Socket.close osErr (Socket.close osErr ⟨5⟩).1 =
      ((Socket.close osErr ⟨5⟩).1, Result.ok (), []) := by
  have h := close_idempotent osErr ⟨5⟩ Errc.invalidArgument
  exact ⟨⟨by decide, rfl⟩, (h.2.1 (by decide) rfl).1, h.2.2⟩

/-- Claim C9: `socket::bind(addr, reuse)` rejects — with
invalid-argument, performing no platform call at all — any non-zero
reuse option that is not platform-supported (on Windows anything but
`SO_REUSEADDR`; on POSIX anything but `SO_REUSEADDR`/`SO_REUSEPORT`),
and sets a supported option before any bind is attempted: the trace
starts with the set-option call, and the OS bind appears only when
that call succeeded. -/
theorem bind_reuse_validation (p : Platform) (oc : BindOracle) (reuse : Nat) :
    (reuse ≠ 0 → reuseSupported p reuse = false →
      Socket.bind p oc reuse = (Result.fromErrc Errc.invalidArgument, [])) ∧
    (reuse ≠ 0 → reuseSupported p reuse = true →
      (Socket.bind p oc reuse).2.head? = some (BindOp.setOpt reuse) ∧
      (BindOp.osBind ∈ (Socket.bind p oc reuse).2 → oc.setOptRes = none)) := by
  constructor
  · intro h hs
    simp [Socket.bind, h, hs]
  · intro h hs
    cases hso : oc.setOptRes <;>
      simp [Socket.bind, h, hs, hso]

/-- Witness for `bind_reuse_validation`: on POSIX, option 7 is
rejected with invalid-argument and nothing is attempted; option
`SO_REUSEPORT` is set first and the bind follows. -/
theorem bind_reuse_validation_witness :
    Socket.bind Platform.posix ⟨none, none⟩ 7 = (Result.fromErrc Errc.invalidArgument, []) ∧
    (Socket.bind Platform.posix ⟨none, none⟩ SO_REUSEPORT).2.head? =
      some (BindOp.setOpt SO_REUSEPORT) := by
  have h7 := bind_reuse_validation Platform.posix ⟨none, none⟩ 7
  have hp := bind_reuse_validation Platform.posix ⟨none, none⟩ SO_REUSEPORT
  exact ⟨h7.1 (by decide) (by decide), (hp.2 (by decide) (by decide)).1⟩

/-- Claim C10: `socket::reset(h)` with the currently owned handle is a
no-op (nothing closed, nothing replaced); with any other `h` —
including the invalid sentinel — the socket takes ownership of `h` and
the previous handle is closed exactly once when it was valid, and not
at all when it was the sentinel. -/
theorem reset_ownership (s : Socket) (h : Int) :
    (h = s.handle → Socket.reset s h = (s, [])) ∧
    (h ≠ s.handle →
      Socket.reset s h =
        (⟨h⟩, if s.handle = INVALID_SOCKET then [] else [s.handle])) := by
  constructor
  · intro hh; simp [Socket.reset, hh]
  · intro hh
    by_cases hv : s.handle = INVALID_SOCKET
    · rw [hv] at hh
      simp [Socket.reset, hv, hh]
    · simp [Socket.reset, hh, hv]

/-- Witness for `reset_ownership`: resetting handle 5 to 6 closes
exactly 5; resetting 5 to 5 is a no-op; resetting 5 to the invalid
sentinel closes exactly 5. -/
theorem reset_ownership_witness :
    Socket.reset ⟨5⟩ 6 = (⟨6⟩, [5]) ∧ Socket.reset ⟨5⟩ 5 = (⟨5⟩, []) ∧
    Socket.reset ⟨5⟩ INVALID_SOCKET = (⟨INVALID_SOCKET⟩, [5]) := by
  refine ⟨?_, (reset_ownership ⟨5⟩ 5).1 rfl, ?_⟩
  · have := (reset_ownership ⟨5⟩ 6).2 (by decide)
    simpa using this
  · have := (reset_ownership ⟨5⟩ INVALID_SOCKET).2 (by decide)
    simpa using this

/-!
## Lemmas on the connector state machine
-/

lemma connRecreate_handle (oc : ConnOracle) (s : ConnState) :
    ((connRecreate oc s).1).handle = oc.freshHandle := by
  unfold connRecreate
  split
  · rename_i h; exact h.symm
  · rfl

lemma connS2_handle (p : Platform) (oc : ConnOracle) (s : ConnState) :
    (connS2 p oc s).handle = oc.freshHandle := by
  unfold connS2
  split <;> simp [connRecreate_handle]

lemma connOk_result (nb : Bool) (st : ConnState) (tr : List ConnOp) :
    (connOk nb st tr).2.1 = Result.ok () := by
  unfold connOk; split <;> rfl

lemma connOk_state_false (st : ConnState) (tr : List ConnOp) :
    connOk false st tr =
      ({ st with nonBlocking := false }, Result.ok (), tr ++ [ConnOp.setNonBlocking false]) := by
  simp [connOk]

lemma doClose_handle (st : ConnState) :
    ((ConnState.doClose st).1).handle = INVALID_SOCKET := by
  unfold ConnState.doClose
  split
  · rfl
  · rename_i h; exact not_not.mp h

lemma connFail_result (st : ConnState) (tr : List ConnOp) (e : Errc) :
    (connFail st tr e).2.1 = ⟨(), some e⟩ := rfl

lemma connFail_handle (st : ConnState) (tr : List ConnOp) (e : Errc) :
    ((connFail st tr e).1).handle = INVALID_SOCKET := doClose_handle st

lemma connFail_trace (st : ConnState) (tr : List ConnOp) (e : Errc)
    (h : st.handle ≠ INVALID_SOCKET) :
    (connFail st tr e).2.2 = tr ++ [ConnOp.closeHandle st.handle] := by
  simp [connFail, ConnState.doClose, h]

lemma mem_connOk (x : ConnOp) (nb : Bool) (st : ConnState) (tr : List ConnOp)
    (hx : x ∈ tr) : x ∈ (connOk nb st tr).2.2 := by
  unfold connOk; split <;> simp [hx]

lemma mem_connFail (x : ConnOp) (st : ConnState) (tr : List ConnOp) (e : Errc)
    (hx : x ∈ tr) : x ∈ (connFail st tr e).2.2 := by
  unfold connFail ConnState.doClose
  split <;> simp [hx]

lemma connFail_closes_fresh (p : Platform) (oc : ConnOracle) (s : ConnState)
    (tr : List ConnOp) (e : Errc) (hf : oc.freshHandle ≠ INVALID_SOCKET) :
    ((connFail (connS2 p oc s) tr e).1).handle = INVALID_SOCKET ∧
    ConnOp.closeHandle oc.freshHandle ∈ (connFail (connS2 p oc s) tr e).2.2 := by
  have h2 : (connS2 p oc s).handle = oc.freshHandle := connS2_handle p oc s
  refine ⟨connFail_handle _ tr e, ?_⟩
  rw [connFail_trace _ tr e (by rw [h2]; exact hf), h2]
  simp

lemma connNb_false (p : Platform) (oc : ConnOracle) (s : ConnState)
    (hnb : oc.freshNonBlocking = false) (hne : oc.freshHandle ≠ s.handle) :
    connNb p oc s = false := by
  cases p
  · rfl
  · simp [connNb, connRecreate, hne, hnb]

lemma connectTimed_pos (p : Platform) (oc : ConnOracle) (s : ConnState) (t : Int)
    (ht : 0 < t) (hc : oc.createRes = none) :
    connectTimed p oc s t =
      connDispatch (connNb p oc s) (connS2 p oc s) (connBase p oc s) oc.connectRes
        oc.pollRes oc.getOptRes oc.soError := by
  have ht' : ¬t ≤ 0 := by omega
  simp [connectTimed, ht', hc]

/-!
## Claims C1–C4: the timeout-bounded connect
-/

/-- Claim C1: with a positive timeout, when the non-blocking OS
connect reports in-progress/would-block and the readiness wait
reports the descriptor ready (positive ready count), the pending
`SO_ERROR` option is retrieved (and its retrieval succeeds); a
non-zero pending error is returned as the connect failure and a zero
pending error yields success. -/
theorem connect_pending_error (p : Platform) (oc : ConnOracle) (s : ConnState) (t : Int)
    (cnt : Nat) (e : Errc) (ht : 0 < t) (hc : oc.createRes = none)
    (he : oc.connectRes = some e)
    (hep : e = Errc.operationInProgress ∨ e = Errc.operationWouldBlock)
    (hp : oc.pollRes = Result.ok cnt) (hcnt : 0 < cnt) (hg : oc.getOptRes = none) :
    ConnOp.getSoError ∈ (connectTimed p oc s t).2.2 ∧
    (oc.soError ≠ 0 → (connectTimed p oc s t).2.1 = ⟨(), some (Errc.raw oc.soError)⟩) ∧
    (oc.soError = 0 → (connectTimed p oc s t).2.1 = Result.ok ()) := by
  rw [connectTimed_pos p oc s t ht hc, he]
  simp only [connDispatch]
  rw [if_pos hep]
  simp only [connAfterWait]
  rw [hp]
  simp only [Result.ok]
  rw [if_pos hcnt, hg]
  dsimp only
  refine ⟨?_, fun hse => ?_, fun hse => ?_⟩
  · by_cases hse : oc.soError = 0
    · rw [if_pos hse]
      exact mem_connOk _ _ _ _ (by simp)
    · rw [if_neg hse]
      exact mem_connFail _ _ _ _ (by simp)
  · rw [if_neg hse]
    rfl
  · rw [if_pos hse]
    exact connOk_result ..

/-- Claim C2: with a positive timeout, when the non-blocking OS
connect reports in-progress/would-block and the readiness wait
elapses with no descriptor ready (ready count 0), the call returns
`errc::timed_out`, which is distinct from connection-refused and from
any raw platform error, so the caller can tell the cases apart. -/
theorem connect_wait_elapse_times_out (p : Platform) (oc : ConnOracle) (s : ConnState)
    (t : Int) (e : Errc) (ht : 0 < t) (hc : oc.createRes = none)
    (he : oc.connectRes = some e)
    (hep : e = Errc.operationInProgress ∨ e = Errc.operationWouldBlock)
    (hp : oc.pollRes = Result.ok 0) :
    (connectTimed p oc s t).2.1 = ⟨(), some Errc.timedOut⟩ ∧
    Errc.timedOut ≠ Errc.connectionRefused ∧ ∀ n, Errc.timedOut ≠ Errc.raw n := by
  rw [connectTimed_pos p oc s t ht hc, he]
  simp only [connDispatch]
  rw [if_pos hep]
  simp only [connAfterWait]
  rw [hp]
  simp only [Result.ok]
  refine ⟨?_, by decide, fun n => by simp⟩
  rw [if_neg (by omega)]
  rfl

/-- Claim C3, counterexample: `connect(addr, timeout)` with
`timeout = 0` degrades to the plain blocking connect; on an immediate
connection-refused failure the freshly created handle (7) is not
closed and not released — the call returns the error while the
connector still owns a valid descriptor, contradicting the claim for
this call. -/
theorem connect_zero_timeout_no_close :
    (connectTimed Platform.posix ocRefused sInit 0).2.1 =
      ⟨(), some Errc.connectionRefused⟩ ∧
    ((connectTimed Platform.posix ocRefused sInit 0).1).handle = 7 ∧
    (7 : Int) ≠ INVALID_SOCKET ∧
    ConnOp.closeHandle 7 ∉ (connectTimed Platform.posix ocRefused sInit 0).2.2 := by
  decide

/-- Claim C3 (amended): for `connect(addr, timeout)` with a positive
timeout, on every failure path reached after the handle was created
(immediate connect failure, wait error, timeout elapse, non-zero
pending error), the handle is closed before the call returns and the
connector is left owning no descriptor. -/
theorem connect_failure_closes (p : Platform) (oc : ConnOracle) (s : ConnState) (t : Int)
    (ht : 0 < t) (hc : oc.createRes = none) (hf : oc.freshHandle ≠ INVALID_SOCKET) :
    ((connectTimed p oc s t).2.1).err.isSome = true →
      ((connectTimed p oc s t).1).handle = INVALID_SOCKET ∧
      ConnOp.closeHandle oc.freshHandle ∈ (connectTimed p oc s t).2.2 := by
  rw [connectTimed_pos p oc s t ht hc]
  simp only [connDispatch]
  cases hcr : oc.connectRes with
  | none =>
    dsimp only
    intro hsome
    rw [connOk_result] at hsome
    simp [Result.ok] at hsome
  | some e =>
    dsimp only
    by_cases hep : e = Errc.operationInProgress ∨ e = Errc.operationWouldBlock
    · rw [if_pos hep]
      simp only [connAfterWait]
      cases hpe : oc.pollRes.err with
      | some we =>
        dsimp only
        exact fun _ => connFail_closes_fresh p oc s _ we hf
      | none =>
        dsimp only
        by_cases hval : oc.pollRes.val > 0
        · rw [if_pos hval]
          cases hgo : oc.getOptRes with
          | some ge =>
            dsimp only
            intro hsome
            rw [connOk_result] at hsome
            simp [Result.ok] at hsome
          | none =>
            dsimp only
            by_cases hse : oc.soError = 0
            · rw [if_pos hse]
              intro hsome
              rw [connOk_result] at hsome
              simp [Result.ok] at hsome
            · rw [if_neg hse]
              exact fun _ => connFail_closes_fresh p oc s _ _ hf
        · rw [if_neg hval]
          exact fun _ => connFail_closes_fresh p oc s _ _ hf
    · rw [if_neg hep]
      exact fun _ => connFail_closes_fresh p oc s _ _ hf

/-- Witness for `connect_failure_closes` at the elapsing-wait oracle:
the timed-out return leaves the connector unconnected and handle 7
closed. -/
theorem connect_failure_closes_witness :
    ((connectTimed Platform.posix ocTimeout sInit 100).1).handle = INVALID_SOCKET ∧
    ConnOp.closeHandle 7 ∈ (connectTimed Platform.posix ocTimeout sInit 100).2.2 :=
  connect_failure_closes Platform.posix ocTimeout sInit 100 (by omega) rfl (by decide)
    (by decide)

/-- Claim C4, counterexample: with a positive timeout, a fresh
blocking socket and an immediate connection-refused failure, the call
switches the socket to non-blocking but never switches it back on
that exit path (the handle is closed instead): the trace holds
`set_non_blocking(true)` and no `set_non_blocking(false)`, against
"restored on every exit path, success or failure". -/
theorem connect_failure_skips_restore :
    ConnOp.setNonBlocking true ∈ (connectTimed Platform.posix ocRefused sInit 100).2.2 ∧
    ConnOp.setNonBlocking false ∉ (connectTimed Platform.posix ocRefused sInit 100).2.2 ∧
    ((connectTimed Platform.posix ocRefused sInit 100).2.1).err.isSome = true := by
  decide

/-- Claim C4 (amended): with a positive timeout on a socket that is
blocking when the non-blocking phase begins, the mode switch is
scoped to the call in this sense: a success return restores the
original blocking mode (the restore call is issued and the owned
descriptor ends blocking), while a failure return closes the handle,
so no open descriptor is ever left in the switched mode. -/
theorem connect_scoped_mode (p : Platform) (oc : ConnOracle) (s : ConnState) (t : Int)
    (ht : 0 < t) (hc : oc.createRes = none) (hnb : oc.freshNonBlocking = false)
    (hne : oc.freshHandle ≠ s.handle) :
    (((connectTimed p oc s t).2.1).err = none →
      ((connectTimed p oc s t).1).nonBlocking = false ∧
      ConnOp.setNonBlocking false ∈ (connectTimed p oc s t).2.2) ∧
    (((connectTimed p oc s t).2.1).err.isSome = true →
      ((connectTimed p oc s t).1).handle = INVALID_SOCKET) := by
  rw [connectTimed_pos p oc s t ht hc, connNb_false p oc s hnb hne]
  simp only [connDispatch]
  cases hcr : oc.connectRes with
  | none =>
    dsimp only
    rw [connOk_state_false]
    exact ⟨fun _ => ⟨rfl, by simp⟩, fun hsome => by simp [Result.ok] at hsome⟩
  | some e =>
    dsimp only
    by_cases hep : e = Errc.operationInProgress ∨ e = Errc.operationWouldBlock
    · rw [if_pos hep]
      simp only [connAfterWait]
      cases hpe : oc.pollRes.err with
      | some we =>
        dsimp only
        refine ⟨fun hnone => ?_, fun _ => connFail_handle ..⟩
        rw [connFail_result] at hnone
        simp at hnone
      | none =>
        dsimp only
        by_cases hval : oc.pollRes.val > 0
        · rw [if_pos hval]
          cases hgo : oc.getOptRes with
          | some ge =>
            dsimp only
            rw [connOk_state_false]
            exact ⟨fun _ => ⟨rfl, by simp⟩, fun hsome => by simp [Result.ok] at hsome⟩
          | none =>
            dsimp only
            by_cases hse : oc.soError = 0
            · rw [if_pos hse, connOk_state_false]
              exact ⟨fun _ => ⟨rfl, by simp⟩, fun hsome => by simp [Result.ok] at hsome⟩
            · rw [if_neg hse]
              refine ⟨fun hnone => ?_, fun _ => connFail_handle ..⟩
              rw [connFail_result] at hnone
              simp at hnone
        · rw [if_neg hval]
          refine ⟨fun hnone => ?_, fun _ => connFail_handle ..⟩
          rw [connFail_result] at hnone
          simp at hnone
    · rw [if_neg hep]
      refine ⟨fun hnone => ?_, fun _ => connFail_handle ..⟩
      rw [connFail_result] at hnone
      simp at hnone

/-- Witness for `connect_scoped_mode` at the zero-pending-error
oracle: the successful connect ends with the descriptor back in
blocking mode and the restore call in the trace. -/
theorem connect_scoped_mode_witness :
    ((connectTimed Platform.posix ocSoZero sInit 100).1).nonBlocking = false ∧
    ConnOp.setNonBlocking false ∈ (connectTimed Platform.posix ocSoZero sInit 100).2.2 :=
  (connect_scoped_mode Platform.posix ocSoZero sInit 100 (by omega) rfl rfl
    (by decide)).1 (by decide)

/-- Witness for `connect_pending_error`: pending error 111 is surfaced
as `raw 111` after the `SO_ERROR` retrieval; pending error 0 yields
success. -/
theorem connect_pending_error_witness :
    ConnOp.getSoError ∈ (connectTimed Platform.posix ocSoErr sInit 100).2.2 ∧
    (connectTimed Platform.posix ocSoErr sInit 100).2.1 = ⟨(), some (Errc.raw 111)⟩ ∧
    (connectTimed Platform.posix ocSoZero sInit 100).2.1 = Result.ok () := by
  have h1 := connect_pending_error Platform.posix ocSoErr sInit 100 1
    Errc.operationInProgress (by omega) rfl rfl (Or.inl rfl) rfl (by omega) rfl
  have h2 := connect_pending_error Platform.posix ocSoZero sInit 100 1
    Errc.operationInProgress (by omega) rfl rfl (Or.inl rfl) rfl (by omega) rfl
  exact ⟨h1.1, h1.2.1 (by decide), h2.2.2 rfl⟩

/-- Witness for `connect_wait_elapse_times_out` at the elapsing-wait
oracle. -/
theorem connect_wait_elapse_witness :
    (connectTimed Platform.posix ocTimeout sInit 100).2.1 = ⟨(), some Errc.timedOut⟩ :=
  (connect_wait_elapse_times_out Platform.posix ocTimeout sInit 100
    Errc.operationInProgress (by omega) rfl rfl (Or.inl rfl) rfl).1

end Sockpp
